import Mathlib

/-!
Verification of the bulkdns DNS bulk-resolution engine.

The development shallowly embeds the Go program bulkdns: resolver-pool
construction and address normalization (initResolvers), the sequential
and concurrent dispatch loops (slowResolv / fastResolv) with their
round-robin resolver cursor, the channel-as-semaphore concurrency
limiter, and the per-query executor (resolv / resolv2) with its
outcome classification.

Network interaction (dns.Client.Exchange) is abstracted as an explicit
exchange result supplied to the pure executor; the concurrent dispatch
and limiter behaviour is modelled as a step relation over counter
states with an inductive reachability predicate.
-/

namespace Bulkdns

/-- Constant `dns.TypeNS` of the miekg/dns library: the NS record type code. -/
def TypeNS : Nat := 2

/-- Constant `dns.RcodeSuccess` of the miekg/dns library: response code 0. -/
def RcodeSuccess : Nat := 0

/-- Constant `TIMEOUT time.Duration = 5` of the source. -/
def TIMEOUT : Nat := 5

/-- Value of `client.ReadTimeout = TIMEOUT * 1e9`: the read timeout in
nanoseconds assigned to the DNS client in `resolv`. -/
def clientReadTimeout : Nat := TIMEOUT * 1000000000

/-- A DNS resource record as seen by `resolv`: its header record type
(`answer.Header().Rrtype`) and, for NS records, the nameserver field
(`answer.(*dns.NS).Ns`). -/
structure RR where
  rrtype : Nat
  ns : String
deriving DecidableEq, Repr

/-- The part of a `dns.Msg` response that `resolv` inspects: the
response code `r.Rcode` and the answer section `r.Answer`. -/
structure Msg where
  rcode : Nat
  answer : List RR
deriving DecidableEq, Repr

/-- Result of `client.Exchange(query, server)` as observed by `resolv`:
a transport error (`err != nil`), a nil response (`r == nil` with no
error), or a response message. -/
inductive ExchangeResult where
  | err (e : String)
  | noResponse
  | ok (r : Msg)
deriving DecidableEq, Repr

/-- The `rcode2string` table of the source, as a total function: a Go
map lookup on an absent key yields the zero value `""`. -/
def rcode2string (rcode : Nat) : String :=
  if rcode = 0 then "Success"
  else if rcode = 1 then "Format Error"
  else if rcode = 2 then "Server Failure"
  else if rcode = 3 then "Name Error"
  else if rcode = 4 then "Not Implementd"
  else if rcode = 5 then "Refused"
  else if rcode = 6 then "YXDomain"
  else if rcode = 7 then "YXRrset"
  else if rcode = 8 then "NXRrset"
  else if rcode = 9 then "Not Auth"
  else if rcode = 10 then "Not Zone"
  else if rcode = 16 then "Bad Signature / Bad Version"
  else if rcode = 17 then "Bad Key"
  else if rcode = 18 then "Bad Time"
  else if rcode = 19 then "Bad Mode"
  else if rcode = 20 then "Bad Name"
  else if rcode = 21 then "Bad Algorithm"
  else if rcode = 22 then "Bad Trunc"
  else if rcode = 23 then "Bad Cookie"
  else ""

/-- The keys present in the `rcode2string` map literal of the source. -/
def rcodeTableKeys : List Nat :=
  [0, 1, 2, 3, 4, 5, 6, 7, 8, 9, 10, 16, 17, 18, 19, 20, 21, 22, 23]

/-- The NS-collection loop of `resolv`: fold over the answer section,
appending the nameserver field `answer.(*dns.NS).Ns` whenever
`answer.Header().Rrtype == dns.TypeNS`. -/
def resolvCollect (answers : List RR) : List String :=
  answers.foldl
    (fun nslist answer =>
      if answer.rrtype == TypeNS then nslist ++ [answer.ns] else nslist)
    []

/-- The value returned by `resolv(domain, server)`, given the exchange
result: `nil` (modelled as `none`) on each of the three error branches,
the collected NS list on success. The `domain` and `server` arguments
only feed the printed diagnostics. -/
def resolv (domain server : String) (x : ExchangeResult) : Option (List String) :=
  match domain, server, x with
  | _, _, .err _ => none
  | _, _, .noResponse => none
  | _, _, .ok r =>
      if r.rcode ≠ RcodeSuccess then none
      else some (resolvCollect r.answer)

/-- The QueryOutcome of the specification: the classified result of one
query. -/
inductive QueryOutcome where
  | success (nslist : List String)
  | transportError (e : String)
  | emptyResponse
  | protocolError (rcode : Nat) (label : String)
deriving DecidableEq, Repr

/-- Outcome classification performed by the branch structure of
`resolv`: `err != nil` is a transport error, `r == nil` an empty
response, `r.Rcode != dns.RcodeSuccess` a protocol error printed with
the rcode and its `rcode2string` label, and otherwise success with the
collected NS list. -/
def classify (x : ExchangeResult) : QueryOutcome :=
  match x with
  | .err e => .transportError e
  | .noResponse => .emptyResponse
  | .ok r =>
      if r.rcode ≠ RcodeSuccess then .protocolError r.rcode (rcode2string r.rcode)
      else .success (resolvCollect r.answer)

/-- Model of `strings.ContainsAny(s, chars)`: whether any Unicode code
point in `chars` is within `s`, over the character lists. The source
calls it with the arguments in the order `strings.ContainsAny(":",
server)`. -/
def containsAny (s chars : String) : Bool :=
  chars.data.any (fun c => s.data.contains c)

/-- The per-address normalization step of `initResolvers`: wrap in
square brackets and append port 53 when `strings.ContainsAny(":",
server)` holds, else just append port 53. -/
def normalizeServer (server : String) : String :=
  if containsAny (":") server then "[" ++ server ++ "]:53"
  else server ++ ":53"

/-- The resolver list built by `initResolvers` from the servers of the
resolver configuration: every entry normalized, in order. -/
def initResolvers (confServers : List String) : List String :=
  confServers.map normalizeServer

/-- The domain/endpoint pairing produced by the loop of `slowResolv`:
`resolv(scanner.Text(), resolvers[server])` followed by
`server = (server + 1) % len(resolvers)`. -/
def slowResolvAssign (resolvers : List String) : Nat → List String → List (String × String)
  | _, [] => []
  | server, domain :: rest =>
      (domain, resolvers.getD server ("")) ::
        slowResolvAssign resolvers ((server + 1) % resolvers.length) rest

/-- The domain/endpoint pairing produced by the loop of `fastResolv`:
`go resolv2(scanner.Text(), resolvers[server], &wg, threads)` followed
by `server = (server + 1) % len(resolvers)`. The `concurrent` setting
sizes the `threads` channel and never enters the cursor computation. -/
def fastResolvAssign (concurrent : Nat) (resolvers : List String) :
    Nat → List String → List (String × String)
  | _, [] => []
  | server, domain :: rest =>
      (domain, resolvers.getD server ("")) ::
        fastResolvAssign concurrent resolvers ((server + 1) % resolvers.length) rest

/-- A full `slowResolv` run: each scanned domain is resolved against
the endpoint under the cursor and yields one classified outcome; the
`exchange` argument abstracts the network response for a
(domain, server) pair. -/
def slowResolvRun (exchange : String → String → ExchangeResult)
    (resolvers : List String) : Nat → List String → List (String × QueryOutcome)
  | _, [] => []
  | server, domain :: rest =>
      (domain, classify (exchange domain (resolvers.getD server ("")))) ::
        slowResolvRun exchange resolvers ((server + 1) % resolvers.length) rest

/-- Outcome of a `main` run: an early exit code, or the per-domain
outcome sequence of the dispatch loop. -/
structure RunOutcome where
  exitCode : Option Nat
  queries : List (String × QueryOutcome)
deriving DecidableEq, Repr

/-- The `main` / `initResolvers` control flow around pool construction:
`initResolvers` runs before the input file is read; when the built
resolver list is empty it prints "No resolvers found." and calls
`os.Exit(5)`, so no query is ever issued; otherwise dispatch runs. -/
def mainRun (exchange : String → String → ExchangeResult)
    (confServers : List String) (domains : List String) : RunOutcome :=
  let resolvers := initResolvers confServers
  if resolvers.length = 0 then { exitCode := some 5, queries := [] }
  else { exitCode := none, queries := slowResolvRun exchange resolvers 0 domains }

/-- A `dns.Question` as built by the source: owner name and qtype. -/
structure Question where
  name : String
  qtype : Nat
deriving DecidableEq, Repr

/-- The fields of the `dns.Msg` query that `resolv` sets up. -/
structure DnsQuery where
  recursionDesired : Bool
  question : List Question
deriving DecidableEq, Repr

/-- Result of `new(dns.Msg)`: a zero-valued query message. -/
def newMsg : DnsQuery := { recursionDesired := false, question := [] }

/-- Model of `query.SetQuestion(z, t)` of the miekg/dns library:
replace the question section with the single question (z, t). -/
def setQuestion (m : DnsQuery) (z : String) (t : Nat) : DnsQuery :=
  { m with question := [{ name := z, qtype := t }] }

/-- The query set up by `resolv`: `query.RecursionDesired = true`, then
`query.Question = make([]dns.Question, 1)`, then
`query.SetQuestion(domain, dns.TypeNS)`. -/
def buildQuery (domain : String) : DnsQuery :=
  let query := newMsg
  let query := { query with recursionDesired := true }
  let query := { query with question := List.replicate 1 { name := "", qtype := 0 } }
  setQuestion query domain TypeNS

/-- Observable actions of the goroutine body `resolv2`: reaching a
terminal outcome inside `resolv`, the channel receive `_ = <-threads`
(the slot release), and `wg.Done()`. -/
inductive GoAction where
  | outcome (o : QueryOutcome)
  | release
  | done
deriving DecidableEq, Repr

/-- The action trace of one `resolv(domain, server)` call together with
its return value, branch by branch: each of the three error branches
prints its diagnostic (reaching that terminal outcome) and returns
`nil`; the success branch collects the NS list and returns it. -/
def resolvTrace (x : ExchangeResult) : List GoAction × Option (List String) :=
  match x with
  | .err e => ([GoAction.outcome (QueryOutcome.transportError e)], none)
  | .noResponse => ([GoAction.outcome QueryOutcome.emptyResponse], none)
  | .ok r =>
      if r.rcode ≠ RcodeSuccess then
        ([GoAction.outcome (QueryOutcome.protocolError r.rcode (rcode2string r.rcode))], none)
      else
        ([GoAction.outcome (QueryOutcome.success (resolvCollect r.answer))],
          some (resolvCollect r.answer))

/-- The action trace of the goroutine body `resolv2`: run `resolv` to
completion, then `_ = <-threads`, then `wg.Done()`. -/
def resolv2Trace (x : ExchangeResult) : List GoAction :=
  (resolvTrace x).1 ++ [GoAction.release, GoAction.done]

/-- Capacity of the limiter channel `make(chan string, concurrent)`:
exactly the configured `concurrent` value. -/
def chanCapacity (concurrent : Nat) : Nat := concurrent

/-- Counter abstraction of a `fastResolv` run: tokens sent into the
`threads` channel by the dispatcher loop, goroutines spawned, goroutine
bodies whose `resolv` call has returned, and tokens received back from
the channel. -/
structure FastState where
  sent : Nat
  spawned : Nat
  finished : Nat
  freed : Nat
deriving DecidableEq, Repr

/-- The initial state of a `fastResolv` run. -/
def initState : FastState := { sent := 0, spawned := 0, finished := 0, freed := 0 }

/-- Queries currently in flight: goroutines spawned whose `resolv` call
has not yet returned. -/
def inFlight (s : FastState) : Nat := s.spawned - s.finished

/-- Interleaved small-step semantics of `fastResolv` with concurrency
setting `C` and `N` input domains. The dispatcher alternates
`threads <- "x"` (blocking while the channel holds `chanCapacity C`
tokens) with `go resolv2(...)`; each goroutine finishes its `resolv`
call and only then receives its token back from the channel. -/
inductive FastStep (C N : Nat) : FastState → FastState → Prop where
  | send (s : FastState) (hturn : s.sent = s.spawned) (hdom : s.sent < N)
      (hcap : s.sent - s.freed < chanCapacity C) :
      FastStep C N s { s with sent := s.sent + 1 }
  | spawn (s : FastState) (h : s.spawned < s.sent) :
      FastStep C N s { s with spawned := s.spawned + 1 }
  | finish (s : FastState) (h : s.finished < s.spawned) :
      FastStep C N s { s with finished := s.finished + 1 }
  | recv (s : FastState) (h : s.freed < s.finished) :
      FastStep C N s { s with freed := s.freed + 1 }

/-- States reachable in a `fastResolv` run. -/
inductive FastReachable (C N : Nat) : FastState → Prop where
  | init : FastReachable C N initState
  | step (s t : FastState) : FastReachable C N s → FastStep C N s t → FastReachable C N t

/-- Inductive invariant of the `fastResolv` counter system. -/
def FastInv (C : Nat) (s : FastState) : Prop :=
  s.freed ≤ s.finished ∧ s.finished ≤ s.spawned ∧ s.spawned ≤ s.sent ∧
    s.sent ≤ s.spawned + 1 ∧ s.sent - s.freed ≤ C

/-- Helper: the NS-collection fold of `resolv` computes, over any
accumulator, the accumulator followed by the nameserver fields of the
NS-typed records, in answer order. -/
theorem resolvCollect_go (answers : List RR) (acc : List String) :
    answers.foldl (fun nslist a => if a.rrtype == TypeNS then nslist ++ [a.ns] else nslist) acc
      = acc ++ (answers.filter (fun a => a.rrtype == TypeNS)).map RR.ns := by
  induction answers generalizing acc with
  | nil => simp
  | cons a rest ih =>
    cases h : (a.rrtype == TypeNS) with
    | true =>
      rw [List.foldl_cons, List.filter_cons, h, if_pos rfl, if_pos rfl, ih]
      simp
    | false =>
      rw [List.foldl_cons, List.filter_cons, h]
      simp only [Bool.false_eq_true, if_false]
      exact ih acc

/-- Helper: the swapped-argument call `strings.ContainsAny(":",
server)` of the source still tests whether `server` contains a colon,
because the first argument is the single character colon. -/
theorem containsAny_colon (s : String) : containsAny (":") s = s.data.contains ':' := by
  unfold containsAny
  induction s.data with
  | nil => rfl
  | cons c cs ih => simp_all [List.any_cons, List.contains_cons, eq_comm]

/-- Helper: position `i` of the pairing built by the `slowResolv` loop,
for any starting cursor below the pool size. -/
theorem slowResolvAssign_getD (resolvers : List String) (domains : List String) :
    ∀ (server i : Nat), server < resolvers.length → i < domains.length →
      (slowResolvAssign resolvers server domains).getD i ("", "") =
        (domains.getD i (""), resolvers.getD ((server + i) % resolvers.length) ("")) := by
  induction domains with
  | nil => intro server i _ hi; simp at hi
  | cons d rest ih =>
    intro server i hs hi
    cases i with
    | zero =>
      simp [slowResolvAssign, Nat.mod_eq_of_lt hs]
    | succ n =>
      have hM : 0 < resolvers.length := Nat.lt_of_le_of_lt (Nat.zero_le _) hs
      have h1 : (server + 1) % resolvers.length < resolvers.length := Nat.mod_lt _ hM
      have h2 : n < rest.length := by simpa using Nat.lt_of_succ_lt_succ hi
      simp only [slowResolvAssign, List.getD_cons_succ]
      rw [ih _ n h1 h2, Nat.mod_add_mod]
      have h3 : server + 1 + n = server + (n + 1) := by omega
      rw [h3]

/-- Helper: the `fastResolv` loop pairs domains with endpoints exactly
as the `slowResolv` loop does, for every concurrency setting. -/
theorem fastResolvAssign_eq (concurrent : Nat) (resolvers : List String)
    (domains : List String) :
    ∀ server, fastResolvAssign concurrent resolvers server domains
      = slowResolvAssign resolvers server domains := by
  induction domains with
  | nil => intro server; rfl
  | cons d rest ih => intro server; simp [fastResolvAssign, slowResolvAssign, ih]

/-- Helper: a `slowResolv` run emits its outcomes labelled by the input
domains, in input order, whatever the exchange results are. -/
theorem slowResolvRun_fst (exchange : String → String → ExchangeResult)
    (resolvers : List String) (domains : List String) :
    ∀ server, (slowResolvRun exchange resolvers server domains).map Prod.fst = domains := by
  induction domains with
  | nil => intro _; rfl
  | cons d rest ih => intro server; simp [slowResolvRun, ih]

/-- Helper: `FastInv` holds in every reachable state of the
`fastResolv` counter system. -/
theorem fastInv_of_reachable {C N : Nat} {s : FastState}
    (h : FastReachable C N s) : FastInv C s := by
  induction h with
  | init => exact ⟨Nat.le_refl _, Nat.le_refl _, Nat.le_refl _, Nat.le_succ _, by simp [initState]⟩
  | step u t _ hstep ih =>
    obtain ⟨h1, h2, h3, h4, h5⟩ := ih
    cases hstep with
    | send hturn hdom hcap =>
      simp only [FastInv, chanCapacity] at hcap ⊢
      refine ⟨?_, ?_, ?_, ?_, ?_⟩ <;> (try simp) <;> omega
    | spawn hlt =>
      refine ⟨?_, ?_, ?_, ?_, ?_⟩ <;> (try simp) <;> omega
    | finish hlt =>
      refine ⟨?_, ?_, ?_, ?_, ?_⟩ <;> (try simp) <;> omega
    | recv hlt =>
      refine ⟨?_, ?_, ?_, ?_, ?_⟩ <;> (try simp) <;> omega

/-- Claim C1: for every list of domains and every resolver pool with at
least one endpoint, the domain at 0-indexed position i of the input is
paired with the resolver at index i mod M, and the concurrent dispatch
loop (`fastResolv`) produces exactly the same pairing as the sequential
one (`slowResolv`), independent of the configured concurrency
setting. -/
theorem roundRobinAssignment (domains resolvers : List String) (concurrent i : Nat)
    (hM : 1 ≤ resolvers.length) (hi : i < domains.length) :
    (slowResolvAssign resolvers 0 domains).getD i ("", "") =
      (domains.getD i (""), resolvers.getD (i % resolvers.length) ("")) ∧
    fastResolvAssign concurrent resolvers 0 domains = slowResolvAssign resolvers 0 domains := by
  constructor
  · have h := slowResolvAssign_getD resolvers domains 0 i hM hi
    simpa using h
  · exact fastResolvAssign_eq concurrent resolvers domains 0

/-- Witness for claim C1: three domains over a two-endpoint pool, with
concurrency setting 7; the third domain goes to resolver index
2 mod 2 = 0, and the fast pairing equals the slow one. -/
theorem roundRobinAssignment_witness :
    (slowResolvAssign ["192.0.2.1:53", "192.0.2.2:53"] 0
        ["a.example.", "b.example.", "c.example."]).getD 2 ("", "")
      = ("c.example.", "192.0.2.1:53") ∧
    fastResolvAssign 7 ["192.0.2.1:53", "192.0.2.2:53"] 0
        ["a.example.", "b.example.", "c.example."]
      = slowResolvAssign ["192.0.2.1:53", "192.0.2.2:53"] 0
          ["a.example.", "b.example.", "c.example."] := by
  have h := roundRobinAssignment ["a.example.", "b.example.", "c.example."]
    ["192.0.2.1:53", "192.0.2.2:53"] 7 2 (by decide) (by decide)
  exact ⟨by simpa using h.1, h.2⟩

/-- Counterexample to claim C2 as stated: the capacity of the limiter
channel `make(chan string, concurrent)` is the configured value itself,
so configuring concurrency 0 gives capacity 0, not at least 1. -/
theorem limiterCapacityZero : ¬ 1 ≤ chanCapacity 0 := by decide

/-- Claim C2 (amended): the limiter channel capacity is exactly the
configured concurrency value C; in every reachable state of a
`fastResolv` run the number of in-flight query executions is at most C;
and with C = 1 two query executions never overlap in time (the
in-flight count never reaches 2). -/
theorem inFlightBounded (C N : Nat) (s : FastState) (h : FastReachable C N s) :
    chanCapacity C = C ∧ inFlight s ≤ C ∧ (C = 1 → ¬ 2 ≤ inFlight s) := by
  obtain ⟨h1, h2, h3, h4, h5⟩ := fastInv_of_reachable h
  refine ⟨rfl, ?_, ?_⟩
  · unfold inFlight; omega
  · intro hC; unfold inFlight; omega

/-- Witness for claim C2: the state after one token send and one
goroutine spawn is reachable with C = 1 and two domains, and satisfies
the bound. -/
theorem inFlightBounded_witness :
    chanCapacity 1 = 1 ∧ inFlight ⟨1, 1, 0, 0⟩ ≤ 1 ∧ (1 = 1 → ¬ 2 ≤ inFlight ⟨1, 1, 0, 0⟩) := by
  have s1 : FastReachable 1 2 { initState with sent := 1 } :=
    FastReachable.step _ _ FastReachable.init (FastStep.send initState rfl (by decide) (by decide))
  have s2 : FastReachable 1 2 ⟨1, 1, 0, 0⟩ :=
    FastReachable.step _ _ s1 (FastStep.spawn _ (by decide))
  exact inFlightBounded 1 2 _ s2

/-- Claim C3: when the response code is Success, the outcome payload is
the sequence of nameserver fields of exactly the answer-section records
of type NS, in response order; non-NS answer records are excluded and
the sequence may be empty. -/
theorem successPayload (r : Msg) (h : r.rcode = RcodeSuccess) :
    classify (ExchangeResult.ok r) =
      QueryOutcome.success ((r.answer.filter (fun a => a.rrtype == TypeNS)).map RR.ns) := by
  have hcol : resolvCollect r.answer
      = (r.answer.filter (fun a => a.rrtype == TypeNS)).map RR.ns := by
    simpa only [List.nil_append] using resolvCollect_go r.answer []
  simp [classify, h, hcol]

/-- Witness for claim C3: a Success response carrying two NS records
and one non-NS record yields exactly the two nameserver fields, in
order. -/
theorem successPayload_witness :
    classify (ExchangeResult.ok
        { rcode := 0,
          answer := [{ rrtype := 2, ns := "ns1.example.com." },
                     { rrtype := 2, ns := "ns2.example.com." },
                     { rrtype := 1, ns := "" }] })
      = QueryOutcome.success ["ns1.example.com.", "ns2.example.com."] := by
  have h := successPayload
    { rcode := 0,
      answer := [{ rrtype := 2, ns := "ns1.example.com." },
                 { rrtype := 2, ns := "ns2.example.com." },
                 { rrtype := 1, ns := "" }] } rfl
  exact h.trans (by decide)

/-- Claim C4: a response code other than Success is classified as a
protocol error carrying that numeric code and the label from the fixed
`rcode2string` table; code 3 maps to the label Name Error, and a code
absent from the table yields the empty label rather than a failure. -/
theorem protocolErrorClassification :
    (∀ r : Msg, r.rcode ≠ RcodeSuccess →
        classify (ExchangeResult.ok r)
          = QueryOutcome.protocolError r.rcode (rcode2string r.rcode)) ∧
    rcode2string 3 = "Name Error" ∧
    (∀ code : Nat, code ∉ rcodeTableKeys → rcode2string code = "") := by
  refine ⟨?_, rfl, ?_⟩
  · intro r h
    simp [classify, h]
  · intro code hc
    simp only [rcodeTableKeys, List.mem_cons, List.not_mem_nil, or_false, not_or] at hc
    obtain ⟨h0, h1, h2, h3, h4, h5, h6, h7, h8, h9, h10, h16, h17, h18, h19, h20, h21, h22, h23⟩ := hc
    simp [rcode2string, h0, h1, h2, h3, h4, h5, h6, h7, h8, h9, h10,
      h16, h17, h18, h19, h20, h21, h22, h23]

/-- Witness for claim C4: response code 3 yields a protocol error with
the label Name Error, and the absent code 11 yields the empty label. -/
theorem protocolErrorClassification_witness :
    classify (ExchangeResult.ok { rcode := 3, answer := [] })
      = QueryOutcome.protocolError 3 (rcode2string 3) ∧
    rcode2string 3 = "Name Error" ∧ rcode2string 11 = "" := by
  have h := protocolErrorClassification
  exact ⟨h.1 { rcode := 3, answer := [] } (by decide), h.2.1, h.2.2 11 (by decide)⟩

/-- Claim C5: on every outcome branch of the query execution (transport
error, empty response, protocol error, success), the goroutine body
releases its concurrency slot exactly once, after the terminal outcome
is reached: its trace is always one terminal outcome, then one release,
then the wait-group Done. -/
theorem releaseExactlyOnce (x : ExchangeResult) :
    resolv2Trace x = [GoAction.outcome (classify x), GoAction.release, GoAction.done] ∧
    (resolv2Trace x).count GoAction.release = 1 := by
  have h : resolv2Trace x = [GoAction.outcome (classify x), GoAction.release, GoAction.done] := by
    cases x with
    | err e => rfl
    | noResponse => rfl
    | ok r =>
      by_cases hr : r.rcode = RcodeSuccess
      · simp [resolv2Trace, resolvTrace, classify, hr]
      · simp [resolv2Trace, resolvTrace, classify, hr]
  refine ⟨h, ?_⟩
  rw [h]
  simp [List.count_cons, List.count_nil]

/-- Claim C6: a per-domain failure outcome never terminates the run and
never causes another domain to be skipped, reordered, or retried:
whatever exchange results the network produces, the sequential run
emits exactly one outcome per input domain, labelled by the domains in
input order. -/
theorem failuresDoNotStopProcessing (exchange : String → String → ExchangeResult)
    (resolvers : List String) (domains : List String) :
    (slowResolvRun exchange resolvers 0 domains).map Prod.fst = domains ∧
    (slowResolvRun exchange resolvers 0 domains).length = domains.length := by
  have h := slowResolvRun_fst exchange resolvers domains 0
  refine ⟨h, ?_⟩
  calc (slowResolvRun exchange resolvers 0 domains).length
      = ((slowResolvRun exchange resolvers 0 domains).map Prod.fst).length := by simp
    _ = domains.length := by rw [h]

/-- Claim C7: when resolver pool construction is supplied zero
endpoints, the program exits with code 5 before any query is issued,
for every domain list and every network behaviour. -/
theorem emptyPoolExitsFive (exchange : String → String → ExchangeResult)
    (domains : List String) :
    mainRun exchange [] domains = { exitCode := some 5, queries := [] } := rfl

/-- Claim C8: for every domain, the query is built with the
recursion-desired flag set and exactly one question of record type NS
for that domain, and the read timeout is exactly 5 seconds (the source
assigns TIMEOUT * 1e9 = 5000000000 nanoseconds). -/
theorem queryConstruction (domain : String) :
    (buildQuery domain).recursionDesired = true ∧
    (buildQuery domain).question = [{ name := domain, qtype := TypeNS }] ∧
    (buildQuery domain).question.length = 1 ∧
    clientReadTimeout = 5 * 1000000000 :=
  ⟨rfl, rfl, rfl, rfl⟩

/-- Claim C9: an address containing a colon is wrapped in square
brackets and gets port 53 appended; an address without a colon gets
port 53 appended with no brackets. The swapped arguments in
`strings.ContainsAny(":", server)` still test colon membership because
the first argument is the single colon character. -/
theorem normalizeServerSpec (server : String) :
    (server.data.contains ':' = true →
        normalizeServer server = "[" ++ server ++ "]:53") ∧
    (server.data.contains ':' = false →
        normalizeServer server = server ++ ":53") := by
  constructor
  · intro h
    unfold normalizeServer
    rw [containsAny_colon, h]
    simp
  · intro h
    unfold normalizeServer
    rw [containsAny_colon, h]
    simp

/-- Witness for claim C9: a bare IPv6 address is bracketed; an IPv4
address just gets the port. -/
theorem normalizeServerSpec_witness :
    normalizeServer ("2001:db8::1") = "[2001:db8::1]:53" ∧
    normalizeServer ("192.0.2.1") = "192.0.2.1:53" := by
  have h1 := (normalizeServerSpec ("2001:db8::1")).1 (by decide)
  have h2 := (normalizeServerSpec ("192.0.2.1")).2 (by decide)
  exact ⟨h1.trans (by decide), h2.trans (by decide)⟩

/-- Claim C10: `resolv` returns nil (`none`) on each of its three error
branches and a non-nil, possibly empty, list on success, so a caller
can distinguish every classified failure from a Success outcome with
zero NS records. -/
theorem resolvNilVsEmpty (domain server : String) :
    (∀ e, resolv domain server (ExchangeResult.err e) = none) ∧
    resolv domain server ExchangeResult.noResponse = none ∧
    (∀ r : Msg, r.rcode ≠ RcodeSuccess → resolv domain server (ExchangeResult.ok r) = none) ∧
    (∀ r : Msg, r.rcode = RcodeSuccess →
        resolv domain server (ExchangeResult.ok r) = some (resolvCollect r.answer)) := by
  refine ⟨fun e => rfl, rfl, ?_, ?_⟩
  · intro r h; simp [resolv, h]
  · intro r h; simp [resolv, h]

/-- Witness for claim C10: a transport error and a protocol error both
return `none`, while a Success response with no NS records returns
`some []`, which is distinguishable from `none`. -/
theorem resolvNilVsEmpty_witness :
    resolv ("example.com.") ("192.0.2.1:53") (ExchangeResult.err ("i/o timeout")) = none ∧
    resolv ("example.com.") ("192.0.2.1:53") (ExchangeResult.ok { rcode := 3, answer := [] }) = none ∧
    resolv ("example.com.") ("192.0.2.1:53") (ExchangeResult.ok { rcode := 0, answer := [] }) = some [] := by
  have h := resolvNilVsEmpty ("example.com.") ("192.0.2.1:53")
  refine ⟨h.1 ("i/o timeout"), h.2.2.1 { rcode := 3, answer := [] } (by decide), ?_⟩
  have h0 := h.2.2.2 { rcode := 0, answer := [] } rfl
  simpa using h0

end Bulkdns
